import Mathlib

/-!
Shallow embedding of the fgcmcal repository core, and proofs about it.

The embedding covers:
  * the multi-cycle convergence controller of
    `python/lsst/fgcmcal/fgcmCalibrateTract.py` (`FgcmCalibrateTractTask.runDataRef`),
  * the star-observation index translation of the same function
    (`np.searchsorted` against the sorted visit list),
  * the LUT build task of `python/lsst/fgcm/fgcmMakeLut.py`
    (`FgcmMakeLutTask.run` / `_fgcmMakeLut`), including the name-resolution
    behaviour of the Python attribute and local-variable accesses it performs,
  * the reference-catalog loader of
    `python/lsst/fgcmcal/fgcmLoadReferenceCatalog.py`
    (`_determine_flux_fields` and `getFgcmReferenceStarsSkyCircle`).

The external fit engine (the `fgcm` package) is modelled as an oracle: a
function giving, for each fit invocation, the per-band reserved raw
repeatability vector the engine reports afterwards.  Floating point values are
modelled as rationals; side effects (engine invocations, magnitude reloads,
dataset writes, log warnings) are recorded in explicit event lists.
-/

namespace Fgcmcal

/-! ## Convergence controller (`fgcmCalibrateTract.py`, lines 324-407) -/

/-- Observable side effects of `FgcmCalibrateTractTask.runDataRef`, in program
order.  `computeIndices` is the one-time construction of `obsIndex` /
`visitIndex` (lines 288-290); `fitRun c` is a call `fgcmFitCycle.run()` made
with the cycle number set to `c`; `reloadMags` is a call
`fgcmFitCycle.fgcmStars.reloadStarMagnitudes(...)` refreshing the matched
instrumental magnitude and error columns from the original observation table;
`warnNonConvergence` is the `log.warn` at line 384. -/
inductive Event where
  | computeIndices : Event
  | fitRun : ℕ → Event
  | reloadMags : Event
  | warnNonConvergence : Event
  deriving DecidableEq, Repr

/-- The convergence test of lines 364-366:
`np.alltrue((previousReservedRawRepeatability - current) < convergenceTolerance)`.
The comparison is elementwise on the signed difference. -/
def checkConvergence (prev cur : List ℚ) (tol : ℚ) : Bool :=
  (List.zipWith (fun p c => decide (p - c < tol)) prev cur).all (fun b => b)

/-- One convergence decision (lines 363-378): returns the `converged` flag and
the `previousReservedRawRepeatability` vector for the next cycle.  The vector
is overwritten with `cur` only in the `else` (non-converged) branch
(line 374). -/
def cycleStep (prev cur : List ℚ) (tol : ℚ) : Bool × List ℚ :=
  let conv := checkConvergence prev cur tol
  (conv, if conv then prev else cur)

/-- Sentinel initialization of line 327:
`previousReservedRawRepeatability = np.zeros(fgcmPars.nBands) + 1000.0`. -/
def initialPreviousRepeatability (nBands : ℕ) : List ℚ :=
  List.replicate nBands 1000

/-- The events of one loop iteration with cycle number `n`: a magnitude
reload when `n > 0` (lines 336-347), then the engine fit run (line 352). -/
def loopEventBlock (n : ℕ) : List Event :=
  (if 0 < n then [Event.reloadMags] else []) ++ [Event.fitRun n]

/-- The `while (not converged and cycleNumber < maxFitCycles)` loop of
lines 332-380.  `rep c` is the per-band repeatability the engine reports after
the fit run at cycle number `c`.  Returns the final `converged` flag, the
final `cycleNumber` (incremented once per iteration, line 380) and the list of
events the loop produced.  On each iteration with `cycleNumber > 0` the star
magnitudes are reloaded from the original observation table before the fit
(lines 336-347). -/
def fitLoop (rep : ℕ → List ℚ) (tol : ℚ) (maxFitCycles : ℕ)
    (cycleNumber : ℕ) (prev : List ℚ) : Bool × ℕ × List Event :=
  if _h : cycleNumber < maxFitCycles then
    if (cycleStep prev (rep cycleNumber) tol).1 then
      (true, cycleNumber + 1, loopEventBlock cycleNumber)
    else
      let r := fitLoop rep tol maxFitCycles (cycleNumber + 1)
        (cycleStep prev (rep cycleNumber) tol).2
      (r.1, r.2.1, loopEventBlock cycleNumber ++ r.2.2)
  else
    (false, cycleNumber, [])
termination_by maxFitCycles - cycleNumber

/-- Final output of the tract calibration run (the parts of `outStruct` the
claims are about): the convergence flag, the cycle number used for the final
clean-up cycle, and `outStruct.repeatability` (line 436, the engine's
repeatability after the clean-up run). -/
structure TractOutput where
  converged : Bool
  cleanupCycleNumber : ℕ
  repeatability : List ℚ
  deriving DecidableEq, Repr

/-- Result of a `runDataRef` invocation: the event trace, and `none` in place
of an output when a `RuntimeError` was raised. -/
structure TractRun where
  events : List Event
  output : Option TractOutput
  deriving DecidableEq, Repr

/-- Embedding of `FgcmCalibrateTractTask.runDataRef` (lines 202-438),
restricted to the control flow the claims are about.  `lutExists` is
`butler.datasetExists('fgcmLookUpTable')`; `doReferenceMatches` is
`config.fgcmBuildStars.doReferenceMatches` (lines 224-228, each `False` case
raises `RuntimeError` before anything else happens).  After the precondition
checks the function computes the observation/visit indices once (lines
288-290), initializes the sentinel repeatability (line 327), runs the fit
loop, warns when the loop exhausted `maxFitCycles` without convergence
(lines 383-384), then unconditionally reloads the star magnitudes and runs
exactly one final clean-up cycle (lines 387-407). -/
def runDataRef (lutExists doReferenceMatches : Bool) (nBands : ℕ)
    (rep : ℕ → List ℚ) (tol : ℚ) (maxFitCycles : ℕ) : TractRun :=
  if !lutExists then
    ⟨[], none⟩
  else if !doReferenceMatches then
    ⟨[], none⟩
  else
    let r := fitLoop rep tol maxFitCycles 0 (initialPreviousRepeatability nBands)
    let warnEvents : List Event := if !r.1 then [Event.warnNonConvergence] else []
    ⟨[Event.computeIndices] ++ r.2.2 ++ warnEvents ++
       [Event.reloadMags, Event.fitRun r.2.1],
     some ⟨r.1, r.2.1, rep r.2.1⟩⟩

/-- Counts the engine fit invocations in an event trace. -/
def fitRunCount (evs : List Event) : ℕ :=
  (evs.filter (fun e => match e with | Event.fitRun _ => true | _ => false)).length

/-- Counts occurrences of one event in a trace. -/
def countEvent (e : Event) (evs : List Event) : ℕ :=
  (evs.filter (fun x => x = e)).length

/-- The `previousReservedRawRepeatability` value in force when the cycle-`n`
convergence check runs, in a run that has not converged before cycle `n`:
the sentinel for `n = 0`, the repeatability reported after the previous fit
otherwise (line 374). -/
def prevAt (rep : ℕ → List ℚ) (nBands : ℕ) : ℕ → List ℚ
  | 0 => initialPreviousRepeatability nBands
  | n + 1 => rep n

/-- The convergence check of cycle `n` succeeds (assuming no earlier cycle
converged). -/
def convergesAt (rep : ℕ → List ℚ) (nBands : ℕ) (tol : ℚ) (n : ℕ) : Prop :=
  checkConvergence (prevAt rep nBands n) (rep n) tol = true

instance (rep : ℕ → List ℚ) (nBands : ℕ) (tol : ℚ) :
    DecidablePred (convergesAt rep nBands tol) := by
  intro n
  unfold convergesAt
  infer_instance

/-- Elementwise characterization of the convergence test: `np.alltrue` over
the broadcast comparison holds exactly when every index in range of both
vectors satisfies the signed inequality. -/
theorem checkConvergence_eq_true_iff (prev cur : List ℚ) (tol : ℚ) :
    checkConvergence prev cur tol = true ↔
      ∀ i, i < prev.length → i < cur.length →
        prev.getD i 0 - cur.getD i 0 < tol := by
  induction prev generalizing cur with
  | nil => simp [checkConvergence]
  | cons p ps ih =>
    cases cur with
    | nil => simp [checkConvergence]
    | cons c cs =>
      simp only [checkConvergence, List.zipWith_cons_cons, List.all_cons,
        Bool.and_eq_true, decide_eq_true_eq]
      constructor
      · rintro ⟨h0, hrest⟩ i hi1 hi2
        cases i with
        | zero => simpa using h0
        | succ j =>
          have hj := (ih cs).mp hrest j (by simpa using hi1) (by simpa using hi2)
          simpa using hj
      · intro hall
        refine ⟨by simpa using hall 0 (by simp) (by simp), (ih cs).mpr ?_⟩
        intro j hj1 hj2
        simpa using hall (j + 1) (by simpa using hj1) (by simpa using hj2)

/-- C1: in the CheckingConvergence step, for every cycle the controller
declares convergence if and only if every band satisfies the signed comparison
`previousRepeatability - currentRepeatability < convergenceTolerance` (so a
band whose repeatability worsened slightly still counts as converged), and the
previous-repeatability vector is overwritten with the just-computed values
only on the non-converged branch. -/
theorem claim_C1_signed_convergence_check (prev cur : List ℚ) (tol : ℚ)
    (h : prev.length = cur.length) :
    (checkConvergence prev cur tol = true ↔
      ∀ i, i < prev.length → prev.getD i 0 - cur.getD i 0 < tol) ∧
    (cycleStep prev cur tol).1 = checkConvergence prev cur tol ∧
    (checkConvergence prev cur tol = true → (cycleStep prev cur tol).2 = prev) ∧
    (checkConvergence prev cur tol = false → (cycleStep prev cur tol).2 = cur) := by
  refine ⟨?_, rfl, ?_, ?_⟩
  · rw [checkConvergence_eq_true_iff]
    constructor
    · intro hall i hi
      exact hall i hi (h ▸ hi)
    · intro hall i hi _
      exact hall i hi
  · intro hc
    simp [cycleStep, hc]
  · intro hc
    simp [cycleStep, hc]

/-- Witness for C1 at a concrete input in which band 1 worsened from 2 to
2.001 (a signed delta of -0.001, below the 0.005 tolerance) while band 0
improved: the cycle is declared converged and the previous-repeatability
vector is kept. -/
theorem claim_C1_signed_convergence_check_witness :
    checkConvergence [2, 2] [1999/1000, 2001/1000] (5/1000) = true ∧
    (cycleStep [2, 2] [1999/1000, 2001/1000] (5/1000)).2 = [2, 2] := by
  have h := claim_C1_signed_convergence_check [2, 2] [1999/1000, 2001/1000]
    (5/1000) (by rfl)
  have hc : checkConvergence [2, 2] [1999/1000, 2001/1000] (5/1000) = true := by
    norm_num [checkConvergence]
  exact ⟨hc, h.2.2.1 hc⟩

/-- C4: before cycle 0 the controller initializes the per-band previous
repeatability to the sentinel value 1000.0, and for every cycle-0
repeatability result whose bands all lie at or below `1000 - tolerance`
(any realistic value) the first cycle is not declared converged. -/
theorem claim_C4_sentinel_initialization (nBands : ℕ) (cur : List ℚ) (tol : ℚ)
    (hlen : cur.length = nBands) (hpos : 0 < nBands)
    (hreal : ∀ x ∈ cur, x ≤ 1000 - tol) :
    initialPreviousRepeatability nBands = List.replicate nBands 1000 ∧
    checkConvergence (initialPreviousRepeatability nBands) cur tol = false := by
  refine ⟨rfl, ?_⟩
  cases hcheck : checkConvergence (initialPreviousRepeatability nBands) cur tol with
  | false => rfl
  | true =>
    exfalso
    have hlen' : (initialPreviousRepeatability nBands).length = nBands := by
      simp [initialPreviousRepeatability]
    have hcur0 : 0 < cur.length := by omega
    have h0 := (checkConvergence_eq_true_iff _ _ _).mp hcheck 0 (by omega) hcur0
    have hprev0 : (initialPreviousRepeatability nBands).getD 0 0 = 1000 := by
      rw [List.getD_eq_getElem _ _ (by omega)]
      simp [initialPreviousRepeatability]
    have hmem : cur.getD 0 0 ∈ cur := by
      rw [List.getD_eq_getElem _ _ hcur0]
      exact List.getElem_mem _
    have hb := hreal _ hmem
    rw [hprev0] at h0
    linarith

/-- Witness for C4 at the spec's scenario: two bands, cycle-0 repeatability
(0.020, 0.018), tolerance 0.005: cycle 0 is not declared converged. -/
theorem claim_C4_sentinel_initialization_witness :
    checkConvergence (initialPreviousRepeatability 2) [1/50, 9/500] (1/200)
      = false := by
  have h := claim_C4_sentinel_initialization 2 [1/50, 9/500] (1/200)
    (by rfl) (by decide) ?_
  · exact h.2
  · intro x hx
    simp only [List.mem_cons, List.not_mem_nil, or_false] at hx
    rcases hx with rfl | rfl <;> norm_num

theorem cycleStep_fst (prev cur : List ℚ) (tol : ℚ) :
    (cycleStep prev cur tol).1 = checkConvergence prev cur tol := rfl

theorem cycleStep_snd (prev cur : List ℚ) (tol : ℚ) :
    (cycleStep prev cur tol).2 =
      if checkConvergence prev cur tol then prev else cur := rfl

/-- The canonical event trace of `n` consecutive loop iterations starting at
cycle number `c`. -/
def loopEvents : ℕ → ℕ → List Event
  | _, 0 => []
  | c, n + 1 => loopEventBlock c ++ loopEvents (c + 1) n

theorem fitRunCount_append (a b : List Event) :
    fitRunCount (a ++ b) = fitRunCount a + fitRunCount b := by
  simp [fitRunCount, List.filter_append]

theorem countEvent_append (e : Event) (a b : List Event) :
    countEvent e (a ++ b) = countEvent e a + countEvent e b := by
  simp [countEvent, List.filter_append]

theorem fitRunCount_loopEventBlock (n : ℕ) :
    fitRunCount (loopEventBlock n) = 1 := by
  by_cases h : 0 < n <;> simp [fitRunCount, loopEventBlock, h]

theorem fitRunCount_loopEvents (n : ℕ) :
    ∀ c, fitRunCount (loopEvents c n) = n := by
  induction n with
  | zero => intro c; simp [loopEvents, fitRunCount]
  | succ m ih =>
    intro c
    rw [loopEvents, fitRunCount_append, fitRunCount_loopEventBlock, ih]
    omega

theorem countEvent_reload_loopEventBlock (n : ℕ) :
    countEvent Event.reloadMags (loopEventBlock n) = if 0 < n then 1 else 0 := by
  by_cases h : 0 < n <;> simp [countEvent, loopEventBlock, h]

theorem countEvent_reload_loopEvents (n : ℕ) :
    countEvent Event.reloadMags (loopEvents 0 n) = n - 1 := by
  cases n with
  | zero => simp [loopEvents, countEvent]
  | succ m =>
    rw [loopEvents, countEvent_append, countEvent_reload_loopEventBlock]
    norm_num
    have haux : ∀ k c, 0 < c →
        countEvent Event.reloadMags (loopEvents c k) = k := by
      intro k
      induction k with
      | zero => intro c _; simp [loopEvents, countEvent]
      | succ j ih =>
        intro c hc
        rw [loopEvents, countEvent_append, countEvent_reload_loopEventBlock,
          if_pos hc, ih (c + 1) (by omega)]
        omega
    rw [haux m 1 (by omega)]

theorem countEvent_computeIndices_loopEvents (n : ℕ) :
    ∀ c, countEvent Event.computeIndices (loopEvents c n) = 0 := by
  induction n with
  | zero => intro c; simp [loopEvents, countEvent]
  | succ m ih =>
    intro c
    rw [loopEvents, countEvent_append, ih]
    by_cases h : 0 < c <;> simp [countEvent, loopEventBlock, h]

/-- Unfolding of the loop when the budget is exhausted. -/
theorem fitLoop_eq_of_ge (rep : ℕ → List ℚ) (tol : ℚ) (maxFitCycles c : ℕ)
    (prev : List ℚ) (h : ¬ c < maxFitCycles) :
    fitLoop rep tol maxFitCycles c prev = (false, c, []) := by
  rw [fitLoop]
  simp [h]

/-- Unfolding of the loop on an iteration whose convergence check succeeds. -/
theorem fitLoop_eq_of_conv (rep : ℕ → List ℚ) (tol : ℚ) (maxFitCycles c : ℕ)
    (prev : List ℚ) (h : c < maxFitCycles)
    (hs : (cycleStep prev (rep c) tol).1 = true) :
    fitLoop rep tol maxFitCycles c prev = (true, c + 1, loopEventBlock c) := by
  rw [fitLoop]
  simp [h, hs]

/-- Unfolding of the loop on an iteration whose convergence check fails. -/
theorem fitLoop_eq_of_nconv (rep : ℕ → List ℚ) (tol : ℚ) (maxFitCycles c : ℕ)
    (prev : List ℚ) (h : c < maxFitCycles)
    (hs : (cycleStep prev (rep c) tol).1 = false) :
    fitLoop rep tol maxFitCycles c prev =
      ((fitLoop rep tol maxFitCycles (c + 1) (cycleStep prev (rep c) tol).2).1,
       (fitLoop rep tol maxFitCycles (c + 1) (cycleStep prev (rep c) tol).2).2.1,
       loopEventBlock c ++
         (fitLoop rep tol maxFitCycles (c + 1)
           (cycleStep prev (rep c) tol).2).2.2) := by
  rw [fitLoop]
  simp [h, hs]

/-- Structural facts about the fit loop: the final cycle number lies between
the starting cycle number and `maxFitCycles`, a non-converged exit uses up the
whole budget, and the loop's event trace is the canonical block sequence of
its executed iterations. -/
theorem fitLoop_basic (rep : ℕ → List ℚ) (tol : ℚ) (maxFitCycles : ℕ) :
    ∀ fuel c prev, maxFitCycles - c ≤ fuel → c ≤ maxFitCycles →
      c ≤ (fitLoop rep tol maxFitCycles c prev).2.1 ∧
      (fitLoop rep tol maxFitCycles c prev).2.1 ≤ maxFitCycles ∧
      ((fitLoop rep tol maxFitCycles c prev).1 = false →
        (fitLoop rep tol maxFitCycles c prev).2.1 = maxFitCycles) ∧
      ((fitLoop rep tol maxFitCycles c prev).1 = true →
        c < (fitLoop rep tol maxFitCycles c prev).2.1) ∧
      (fitLoop rep tol maxFitCycles c prev).2.2 =
        loopEvents c ((fitLoop rep tol maxFitCycles c prev).2.1 - c) := by
  intro fuel
  induction fuel with
  | zero =>
    intro c prev hf hc
    have hcm : ¬ c < maxFitCycles := by omega
    rw [fitLoop_eq_of_ge rep tol maxFitCycles c prev hcm]
    dsimp only
    exact ⟨le_rfl, hc, fun _ => by omega, fun h => Bool.noConfusion h,
      by simp [Nat.sub_self, loopEvents]⟩
  | succ n ih =>
    intro c prev hf hc
    by_cases hcm : c < maxFitCycles
    · by_cases hs : (cycleStep prev (rep c) tol).1 = true
      · rw [fitLoop_eq_of_conv rep tol maxFitCycles c prev hcm hs]
        dsimp only
        refine ⟨by omega, by omega, by simp, fun _ => by omega, ?_⟩
        have h1 : c + 1 - c = 1 := by omega
        simp [h1, loopEvents]
      · simp only [Bool.not_eq_true] at hs
        rw [fitLoop_eq_of_nconv rep tol maxFitCycles c prev hcm hs]
        dsimp only
        obtain ⟨h1, h2, h3, h5, h4⟩ :=
          ih (c + 1) (cycleStep prev (rep c) tol).2 (by omega) (by omega)
        refine ⟨by omega, h2, h3, fun _ => by omega, ?_⟩
        have hm : (fitLoop rep tol maxFitCycles (c + 1)
              (cycleStep prev (rep c) tol).2).2.1 - c
            = ((fitLoop rep tol maxFitCycles (c + 1)
                (cycleStep prev (rep c) tol).2).2.1 - (c + 1)) + 1 := by omega
        rw [hm, loopEvents, h4]
    · rw [fitLoop_eq_of_ge rep tol maxFitCycles c prev hcm]
      dsimp only
      exact ⟨le_rfl, hc, fun _ => by omega, fun h => Bool.noConfusion h,
        by simp [Nat.sub_self, loopEvents]⟩

/-- Convergence characterization of the fit loop, along the reachable states
(`prev = prevAt rep nBands c`, no cycle before `c` converged): a `true` exit
at final cycle number `k` means cycle `k - 1` is the first converging cycle,
and a `false` exit means no cycle in the budget converges. -/
theorem fitLoop_convergence_char (rep : ℕ → List ℚ) (nBands : ℕ) (tol : ℚ)
    (maxFitCycles : ℕ) :
    ∀ fuel c, maxFitCycles - c ≤ fuel →
      (∀ m, m < c → ¬ convergesAt rep nBands tol m) →
      ((fitLoop rep tol maxFitCycles c (prevAt rep nBands c)).1 = true →
        convergesAt rep nBands tol
          ((fitLoop rep tol maxFitCycles c (prevAt rep nBands c)).2.1 - 1) ∧
        ∀ m, m < (fitLoop rep tol maxFitCycles c (prevAt rep nBands c)).2.1 - 1 →
          ¬ convergesAt rep nBands tol m) ∧
      ((fitLoop rep tol maxFitCycles c (prevAt rep nBands c)).1 = false →
        ∀ m, m < maxFitCycles → ¬ convergesAt rep nBands tol m) := by
  intro fuel
  induction fuel with
  | zero =>
    intro c hf hbefore
    have hcm : ¬ c < maxFitCycles := by omega
    rw [fitLoop_eq_of_ge rep tol maxFitCycles c _ hcm]
    dsimp only
    exact ⟨fun h => Bool.noConfusion h, fun _ m hm => hbefore m (by omega)⟩
  | succ n ih =>
    intro c hf hbefore
    by_cases hcm : c < maxFitCycles
    · by_cases hs : (cycleStep (prevAt rep nBands c) (rep c) tol).1 = true
      · rw [fitLoop_eq_of_conv rep tol maxFitCycles c _ hcm hs]
        dsimp only
        refine ⟨fun _ => ?_, fun h => Bool.noConfusion h⟩
        have hconv : convergesAt rep nBands tol c := by
          rw [convergesAt, ← cycleStep_fst]
          exact hs
        have hsub : c + 1 - 1 = c := by omega
        rw [hsub]
        exact ⟨hconv, fun m hm => hbefore m hm⟩
      · simp only [Bool.not_eq_true] at hs
        rw [fitLoop_eq_of_nconv rep tol maxFitCycles c _ hcm hs]
        dsimp only
        have hnconv : ¬ convergesAt rep nBands tol c := by
          rw [convergesAt, ← cycleStep_fst]
          simp [hs]
        have hprev : (cycleStep (prevAt rep nBands c) (rep c) tol).2
            = prevAt rep nBands (c + 1) := by
          rw [cycleStep_snd]
          have : checkConvergence (prevAt rep nBands c) (rep c) tol = false := by
            rw [← cycleStep_fst]
            exact hs
          rw [this]
          simp [prevAt]
        rw [hprev]
        have hbefore' : ∀ m, m < c + 1 → ¬ convergesAt rep nBands tol m := by
          intro m hm
          rcases Nat.lt_or_ge m c with hmc | hmc
          · exact hbefore m hmc
          · have : m = c := by omega
            rw [this]
            exact hnconv
        exact ih (c + 1) (by omega) hbefore'
    · rw [fitLoop_eq_of_ge rep tol maxFitCycles c _ hcm]
      dsimp only
      exact ⟨fun h => Bool.noConfusion h, fun _ m hm => hbefore m (by omega)⟩

/-- Unfolding of `runDataRef` when both preconditions hold. -/
theorem runDataRef_ok (nBands : ℕ) (rep : ℕ → List ℚ) (tol : ℚ)
    (maxFitCycles : ℕ) :
    runDataRef true true nBands rep tol maxFitCycles =
      ⟨[Event.computeIndices]
        ++ (fitLoop rep tol maxFitCycles 0 (initialPreviousRepeatability nBands)).2.2
        ++ (if !(fitLoop rep tol maxFitCycles 0
              (initialPreviousRepeatability nBands)).1
            then [Event.warnNonConvergence] else [])
        ++ [Event.reloadMags,
            Event.fitRun (fitLoop rep tol maxFitCycles 0
              (initialPreviousRepeatability nBands)).2.1],
       some ⟨(fitLoop rep tol maxFitCycles 0
                (initialPreviousRepeatability nBands)).1,
             (fitLoop rep tol maxFitCycles 0
                (initialPreviousRepeatability nBands)).2.1,
             rep (fitLoop rep tol maxFitCycles 0
                (initialPreviousRepeatability nBands)).2.1⟩⟩ := rfl

theorem fitRunCount_nil : fitRunCount [] = 0 := rfl

theorem fitRunCount_single_other :
    fitRunCount [Event.computeIndices] = 0 ∧
    fitRunCount [Event.warnNonConvergence] = 0 := by
  constructor <;> rfl

/-- C5: if the look-up-table artifact is absent from the store, or the flag
enabling reference matching is false, `runDataRef` raises a `RuntimeError`
before any fit cycle starts: the event trace is empty (no index computation,
no engine invocation, no magnitude reload) and no output is produced. -/
theorem claim_C5_precondition_failure_raises (lutExists doReferenceMatches : Bool)
    (nBands : ℕ) (rep : ℕ → List ℚ) (tol : ℚ) (maxFitCycles : ℕ)
    (h : lutExists = false ∨ doReferenceMatches = false) :
    (runDataRef lutExists doReferenceMatches nBands rep tol maxFitCycles).events
      = [] ∧
    (runDataRef lutExists doReferenceMatches nBands rep tol maxFitCycles).output
      = none := by
  rcases h with rfl | rfl
  · exact ⟨rfl, rfl⟩
  · cases lutExists <;> exact ⟨rfl, rfl⟩

/-- Witness for C5: with the look-up table present but reference matching
disabled, the run raises with an empty effect trace. -/
theorem claim_C5_precondition_failure_raises_witness :
    (runDataRef true false 2 (fun _ => [1]) (1/200) 5).events = [] ∧
    (runDataRef true false 2 (fun _ => [1]) (1/200) 5).output = none :=
  claim_C5_precondition_failure_raises true false 2 (fun _ => [1]) (1/200) 5
    (Or.inr rfl)

/-- C2: with the preconditions satisfied, the engine is invoked at most
`maxFitCycles` times inside the convergence loop, exactly one clean-up
invocation follows unconditionally, and the total number of fit invocations
equals `min maxFitCycles cyclesUntilConvergence + 1`, where
`cyclesUntilConvergence` is one more than the index of the first converging
cycle; exhausting the budget without convergence only adds a warning event —
an output is still produced. -/
theorem claim_C2_bounded_fit_invocations (nBands : ℕ) (rep : ℕ → List ℚ)
    (tol : ℚ) (maxFitCycles : ℕ) :
    fitRunCount (fitLoop rep tol maxFitCycles 0
        (initialPreviousRepeatability nBands)).2.2
      = (fitLoop rep tol maxFitCycles 0
          (initialPreviousRepeatability nBands)).2.1 ∧
    (fitLoop rep tol maxFitCycles 0
        (initialPreviousRepeatability nBands)).2.1 ≤ maxFitCycles ∧
    fitRunCount (runDataRef true true nBands rep tol maxFitCycles).events
      = (fitLoop rep tol maxFitCycles 0
          (initialPreviousRepeatability nBands)).2.1 + 1 ∧
    (runDataRef true true nBands rep tol maxFitCycles).output.isSome = true ∧
    ((fitLoop rep tol maxFitCycles 0
        (initialPreviousRepeatability nBands)).1 = false →
      Event.warnNonConvergence
        ∈ (runDataRef true true nBands rep tol maxFitCycles).events) ∧
    (∀ h : ∃ n, convergesAt rep nBands tol n,
      (fitLoop rep tol maxFitCycles 0
          (initialPreviousRepeatability nBands)).2.1
        = min maxFitCycles (Nat.find h + 1)) ∧
    ((¬ ∃ n, convergesAt rep nBands tol n) →
      (fitLoop rep tol maxFitCycles 0
          (initialPreviousRepeatability nBands)).2.1 = maxFitCycles) := by
  obtain ⟨hb1, hb2, hb3, hb5, hb4⟩ :=
    fitLoop_basic rep tol maxFitCycles maxFitCycles 0
      (initialPreviousRepeatability nBands) (by omega) (by omega)
  have hprev0 : initialPreviousRepeatability nBands = prevAt rep nBands 0 := rfl
  have hchar := fitLoop_convergence_char rep nBands tol maxFitCycles maxFitCycles
    0 (by omega) (by omega)
  rw [Nat.sub_zero] at hb4
  have hcount : fitRunCount (fitLoop rep tol maxFitCycles 0
      (initialPreviousRepeatability nBands)).2.2
      = (fitLoop rep tol maxFitCycles 0
          (initialPreviousRepeatability nBands)).2.1 := by
    rw [hb4, fitRunCount_loopEvents]
  have htotal : fitRunCount (runDataRef true true nBands rep tol maxFitCycles).events
      = (fitLoop rep tol maxFitCycles 0
          (initialPreviousRepeatability nBands)).2.1 + 1 := by
    rw [runDataRef_ok]
    rw [fitRunCount_append, fitRunCount_append, fitRunCount_append, hcount]
    have hw : fitRunCount (if !(fitLoop rep tol maxFitCycles 0
        (initialPreviousRepeatability nBands)).1
        then [Event.warnNonConvergence] else []) = 0 := by
      by_cases hcv : (fitLoop rep tol maxFitCycles 0
          (initialPreviousRepeatability nBands)).1 = true
      · simp [hcv, fitRunCount]
      · simp only [Bool.not_eq_true] at hcv
        simp [hcv, fitRunCount]
    rw [hw]
    simp [fitRunCount]
  refine ⟨hcount, hb2, htotal, rfl, ?_, ?_, ?_⟩
  · intro hfalse
    rw [runDataRef_ok]
    simp [hfalse]
  · intro hex
    cases hcv : (fitLoop rep tol maxFitCycles 0
        (initialPreviousRepeatability nBands)).1 with
    | true =>
      have hk1 : 0 < (fitLoop rep tol maxFitCycles 0
          (initialPreviousRepeatability nBands)).2.1 := hb5 hcv
      obtain ⟨hcnv, hmin⟩ := hchar.1 (hprev0 ▸ hcv)
      have hfind : Nat.find hex = (fitLoop rep tol maxFitCycles 0
          (initialPreviousRepeatability nBands)).2.1 - 1 := by
        rw [Nat.find_eq_iff]
        exact ⟨hprev0 ▸ hcnv, fun m hm => (hprev0 ▸ hmin) m hm⟩
      rw [hfind]
      omega
    | false =>
      have hk : (fitLoop rep tol maxFitCycles 0
          (initialPreviousRepeatability nBands)).2.1 = maxFitCycles := hb3 hcv
      have hnone := hchar.2 (hprev0 ▸ hcv)
      have hge : maxFitCycles ≤ Nat.find hex := by
        rw [Nat.le_find_iff]
        exact fun m hm => hnone m hm
      omega
  · intro hnex
    cases hcv : (fitLoop rep tol maxFitCycles 0
        (initialPreviousRepeatability nBands)).1 with
    | true =>
      obtain ⟨hcnv, _⟩ := hchar.1 (hprev0 ▸ hcv)
      exact absurd ⟨_, hcnv⟩ hnex
    | false => exact hb3 hcv

/-- Witness for C2: one band, constant cycle repeatability 0.02, tolerance
0.005, budget 5: the loop converges at cycle 1, so 2 loop fits plus 1
clean-up fit — 3 engine invocations in total, and an output is produced. -/
theorem claim_C2_bounded_fit_invocations_witness :
    fitRunCount (runDataRef true true 1 (fun _ => [1/50]) (1/200) 5).events = 3 ∧
    (runDataRef true true 1 (fun _ => [1/50]) (1/200) 5).output.isSome = true := by
  have h := claim_C2_bounded_fit_invocations 1 (fun _ => [1/50]) (1/200) 5
  have hconv1 : convergesAt (fun _ => [1/50]) 1 (1/200) 1 := by
    show checkConvergence [1/50] [1/50] (1/200) = true
    norm_num [checkConvergence]
  have hnconv0 : ¬ convergesAt (fun _ => [1/50]) 1 (1/200) 0 := by
    show ¬ checkConvergence (initialPreviousRepeatability 1) [1/50] (1/200) = true
    norm_num [checkConvergence, initialPreviousRepeatability, List.replicate]
  have hex : ∃ n, convergesAt (fun _ => [1/50]) 1 (1/200) n := ⟨1, hconv1⟩
  have hfind : Nat.find hex = 1 := by
    rw [Nat.find_eq_iff]
    refine ⟨hconv1, ?_⟩
    intro m hm
    have : m = 0 := by omega
    rw [this]
    exact hnconv0
  have hk := h.2.2.2.2.2.1 hex
  rw [hfind] at hk
  refine ⟨?_, h.2.2.2.1⟩
  rw [h.2.2.1, hk]
  omega

/-- C8: with the preconditions satisfied, the event trace of the whole run is
exactly: one index computation at the very start (never repeated), then for
each loop cycle a fit run preceded by a magnitude refresh exactly when the
cycle number is positive, then the possible non-convergence warning, then one
magnitude refresh followed by the final clean-up fit.  In particular the
indices are computed exactly once and the refresh count is
`(loopCycles - 1) + 1`. -/
theorem claim_C8_indices_fixed_magnitudes_refreshed (nBands : ℕ)
    (rep : ℕ → List ℚ) (tol : ℚ) (maxFitCycles : ℕ) :
    (runDataRef true true nBands rep tol maxFitCycles).events
      = [Event.computeIndices]
        ++ loopEvents 0 (fitLoop rep tol maxFitCycles 0
            (initialPreviousRepeatability nBands)).2.1
        ++ (if !(fitLoop rep tol maxFitCycles 0
              (initialPreviousRepeatability nBands)).1
            then [Event.warnNonConvergence] else [])
        ++ [Event.reloadMags,
            Event.fitRun (fitLoop rep tol maxFitCycles 0
              (initialPreviousRepeatability nBands)).2.1] ∧
    countEvent Event.computeIndices
      (runDataRef true true nBands rep tol maxFitCycles).events = 1 ∧
    (runDataRef true true nBands rep tol maxFitCycles).events.head?
      = some Event.computeIndices ∧
    countEvent Event.reloadMags
      (runDataRef true true nBands rep tol maxFitCycles).events
      = ((fitLoop rep tol maxFitCycles 0
          (initialPreviousRepeatability nBands)).2.1 - 1) + 1 := by
  obtain ⟨hb1, hb2, hb3, hb5, hb4⟩ :=
    fitLoop_basic rep tol maxFitCycles maxFitCycles 0
      (initialPreviousRepeatability nBands) (by omega) (by omega)
  rw [Nat.sub_zero] at hb4
  have hshape : (runDataRef true true nBands rep tol maxFitCycles).events
      = [Event.computeIndices]
        ++ loopEvents 0 (fitLoop rep tol maxFitCycles 0
            (initialPreviousRepeatability nBands)).2.1
        ++ (if !(fitLoop rep tol maxFitCycles 0
              (initialPreviousRepeatability nBands)).1
            then [Event.warnNonConvergence] else [])
        ++ [Event.reloadMags,
            Event.fitRun (fitLoop rep tol maxFitCycles 0
              (initialPreviousRepeatability nBands)).2.1] := by
    rw [runDataRef_ok, hb4]
  have hwarnCompute : countEvent Event.computeIndices
      (if !(fitLoop rep tol maxFitCycles 0
          (initialPreviousRepeatability nBands)).1
       then [Event.warnNonConvergence] else []) = 0 := by
    by_cases hcv : (fitLoop rep tol maxFitCycles 0
        (initialPreviousRepeatability nBands)).1 = true
    · simp [hcv, countEvent]
    · simp only [Bool.not_eq_true] at hcv
      simp [hcv, countEvent]
  have hwarnReload : countEvent Event.reloadMags
      (if !(fitLoop rep tol maxFitCycles 0
          (initialPreviousRepeatability nBands)).1
       then [Event.warnNonConvergence] else []) = 0 := by
    by_cases hcv : (fitLoop rep tol maxFitCycles 0
        (initialPreviousRepeatability nBands)).1 = true
    · simp [hcv, countEvent]
    · simp only [Bool.not_eq_true] at hcv
      simp [hcv, countEvent]
  refine ⟨hshape, ?_, ?_, ?_⟩
  · rw [hshape, countEvent_append, countEvent_append, countEvent_append,
      countEvent_computeIndices_loopEvents, hwarnCompute]
    simp [countEvent]
  · rw [hshape]
    rfl
  · rw [hshape, countEvent_append, countEvent_append, countEvent_append,
      countEvent_reload_loopEvents, hwarnReload]
    simp [countEvent]

/-! ## Star-observation index translation (`fgcmCalibrateTract.py`, lines 288-290) -/

/-- Binary search for the left insertion point, the semantics of
`np.searchsorted(a, v)` with the default `side='left'`: repeatedly halve the
bracket `[lo, hi)` keeping the invariant that entries below `lo` are `< v`
and entries at or above `hi` are `≥ v`.  The first argument is fuel, at least
`hi - lo` at the call sites. -/
def searchsortedAux (a : List ℤ) (v : ℤ) : ℕ → ℕ → ℕ → ℕ
  | 0, lo, _ => lo
  | fuel + 1, lo, hi =>
    if lo < hi then
      if a.getD ((lo + hi) / 2) 0 < v then
        searchsortedAux a v fuel ((lo + hi) / 2 + 1) hi
      else
        searchsortedAux a v fuel lo ((lo + hi) / 2)
    else lo

/-- Left insertion point of `v` in the sorted list `a` (`np.searchsorted`). -/
def searchsorted (a : List ℤ) (v : ℤ) : ℕ :=
  searchsortedAux a v a.length 0 a.length

/-- Modelled from the spec: the `obsIndex` column of `fgcmStarIndicesCat`,
produced by `fgcmBuildStars.fgcmMatchStars` — a module of this repository not
present in the sources at hand.  Per the spec (§4.2 IndexTranslator),
`obsIndex` selects exactly the observations whose visit is a member of the
visit list, in their original relative order (a monotone index array);
observations whose visit is absent are excluded, not errored. -/
def specObsIndex (visits : List ℤ) (obsVisits : List ℤ) : List ℕ :=
  (List.range obsVisits.length).filter
    (fun i => decide (obsVisits.getD i 0 ∈ visits))

/-- Lines 289-290: `visitIndex = np.searchsorted(fgcmExpInfo['VISIT'],
fgcmStarObservationCat['visit'][obsIndex])` — an elementwise binary search of
each selected observation's visit against the sorted visit list.  The
observation table itself is never sorted. -/
def computeVisitIndex (visits : List ℤ) (obsVisits : List ℤ)
    (obsIndex : List ℕ) : List ℕ :=
  obsIndex.map (fun i => searchsorted visits (obsVisits.getD i 0))

/-- Bracket invariant of the binary search: given enough fuel and a sorted
list, the returned position lies in the bracket, everything before it is
`< v` and everything from it on is `≥ v`. -/
theorem searchsortedAux_spec (a : List ℤ) (v : ℤ)
    (hsorted : ∀ i j, i < j → j < a.length → a.getD i 0 < a.getD j 0) :
    ∀ fuel lo hi, hi - lo ≤ fuel → lo ≤ hi → hi ≤ a.length →
      (∀ i, i < lo → a.getD i 0 < v) →
      (∀ i, hi ≤ i → i < a.length → v ≤ a.getD i 0) →
      lo ≤ searchsortedAux a v fuel lo hi ∧
      searchsortedAux a v fuel lo hi ≤ hi ∧
      (∀ i, i < searchsortedAux a v fuel lo hi → a.getD i 0 < v) ∧
      (∀ i, searchsortedAux a v fuel lo hi ≤ i → i < a.length →
        v ≤ a.getD i 0) := by
  intro fuel
  induction fuel with
  | zero =>
    intro lo hi hf hlh hha hlt hge
    have hlo : lo = hi := by omega
    rw [searchsortedAux]
    exact ⟨le_rfl, hlh, hlt, fun i hi1 hi2 => hge i (by omega) hi2⟩
  | succ n ih =>
    intro lo hi hf hlh hha hlt hge
    by_cases h : lo < hi
    · rw [searchsortedAux]
      simp only [if_pos h]
      have hmlo : lo ≤ (lo + hi) / 2 := by omega
      have hmhi : (lo + hi) / 2 < hi := by omega
      by_cases hmv : a.getD ((lo + hi) / 2) 0 < v
      · simp only [if_pos hmv]
        have hlt' : ∀ i, i < (lo + hi) / 2 + 1 → a.getD i 0 < v := by
          intro i hi1
          rcases Nat.lt_or_ge i ((lo + hi) / 2) with him | him
          · exact lt_trans (hsorted i ((lo + hi) / 2) him (by omega)) hmv
          · have hieq : i = (lo + hi) / 2 := by omega
            rw [hieq]
            exact hmv
        have := ih ((lo + hi) / 2 + 1) hi (by omega) (by omega) hha hlt' hge
        exact ⟨by omega, this.2.1, this.2.2.1, this.2.2.2⟩
      · simp only [if_neg hmv]
        have hvm : v ≤ a.getD ((lo + hi) / 2) 0 := le_of_not_lt hmv
        have hge' : ∀ i, (lo + hi) / 2 ≤ i → i < a.length → v ≤ a.getD i 0 := by
          intro i hi1 hi2
          rcases Nat.lt_or_ge ((lo + hi) / 2) i with him | him
          · exact le_of_lt (lt_of_le_of_lt hvm
              (hsorted ((lo + hi) / 2) i him hi2))
          · have hieq : i = (lo + hi) / 2 := by omega
            rw [hieq]
            exact hvm
        have := ih lo ((lo + hi) / 2) (by omega) (by omega) (by omega) hlt hge'
        exact ⟨this.1, by omega, this.2.2.1, this.2.2.2⟩
    · rw [searchsortedAux]
      simp only [if_neg h]
      exact ⟨le_rfl, hlh, hlt, fun i hi1 hi2 => hge i (by omega) hi2⟩

/-- On a strictly sorted list, the binary search finds the exact position of
any member. -/
theorem searchsorted_eq_of_getD (a : List ℤ) (v : ℤ)
    (hsorted : ∀ i j, i < j → j < a.length → a.getD i 0 < a.getD j 0)
    (j : ℕ) (hj : j < a.length) (hv : a.getD j 0 = v) :
    searchsorted a v = j := by
  obtain ⟨h1, h2, h3, h4⟩ := searchsortedAux_spec a v hsorted a.length 0 a.length
    (by omega) (by omega) le_rfl (fun i hi1 => by omega)
    (fun i hi1 hi2 => by omega)
  rcases lt_trichotomy (searchsorted a v) j with hrj | hrj | hrj
  · have hvr := h4 (searchsorted a v) le_rfl (by omega)
    have hlt := hsorted (searchsorted a v) j hrj hj
    rw [hv] at hlt
    exact absurd (lt_of_le_of_lt hvr hlt) (lt_irrefl v)
  · exact hrj
  · have hlt := h3 j hrj
    rw [hv] at hlt
    exact absurd hlt (lt_irrefl v)

/-- C3: for every raw observation table and every strictly ascending visit
list, the translator computes each selected observation's visit position by
binary search against the sorted visit list (the observation table is never
sorted), the `obsIndex` and `visitIndex` arrays are parallel (equal length),
the included observations keep their original relative order (`obsIndex` is
strictly increasing), every included observation's visit is a member of the
visit list, and each `visitIndex` entry is exactly the position of the
corresponding observation's visit in the visit list. -/
theorem claim_C3_index_translation (visits obsVisits : List ℤ)
    (hsorted : visits.Pairwise (· < ·)) :
    (computeVisitIndex visits obsVisits (specObsIndex visits obsVisits)).length
      = (specObsIndex visits obsVisits).length ∧
    (specObsIndex visits obsVisits).Pairwise (· < ·) ∧
    (∀ i ∈ specObsIndex visits obsVisits,
      i < obsVisits.length ∧ obsVisits.getD i 0 ∈ visits) ∧
    (∀ k, k < (specObsIndex visits obsVisits).length →
      (computeVisitIndex visits obsVisits
        (specObsIndex visits obsVisits)).getD k 0 < visits.length ∧
      visits.getD ((computeVisitIndex visits obsVisits
        (specObsIndex visits obsVisits)).getD k 0) 0
        = obsVisits.getD ((specObsIndex visits obsVisits).getD k 0) 0) := by
  have hsorted' : ∀ i j, i < j → j < visits.length →
      visits.getD i 0 < visits.getD j 0 := by
    intro i j hij hj
    have hi : i < visits.length := by omega
    rw [List.getD_eq_getElem _ _ hi, List.getD_eq_getElem _ _ hj]
    exact List.pairwise_iff_getElem.mp hsorted i j hi hj hij
  have hmemsel : ∀ i ∈ specObsIndex visits obsVisits,
      i < obsVisits.length ∧ obsVisits.getD i 0 ∈ visits := by
    intro i hi
    rw [specObsIndex, List.mem_filter] at hi
    exact ⟨List.mem_range.mp hi.1, of_decide_eq_true hi.2⟩
  refine ⟨by rw [computeVisitIndex, List.length_map], ?_, hmemsel, ?_⟩
  · exact (List.pairwise_lt_range _).sublist (List.filter_sublist _)
  · intro k hk
    have hk' : k < (computeVisitIndex visits obsVisits
        (specObsIndex visits obsVisits)).length := by
      rw [computeVisitIndex, List.length_map]
      exact hk
    have hmap : (computeVisitIndex visits obsVisits
        (specObsIndex visits obsVisits)).getD k 0
        = searchsorted visits
            (obsVisits.getD ((specObsIndex visits obsVisits).getD k 0) 0) := by
      simp only [computeVisitIndex] at hk' ⊢
      rw [List.getD_eq_getElem _ _ hk', List.getElem_map,
        List.getD_eq_getElem _ _ hk]
    have hmem : obsVisits.getD ((specObsIndex visits obsVisits).getD k 0) 0
        ∈ visits := by
      refine (hmemsel _ ?_).2
      rw [List.getD_eq_getElem _ _ hk]
      exact List.getElem_mem _
    obtain ⟨j, hj, hjv⟩ := List.mem_iff_getElem.mp hmem
    have hjd : visits.getD j 0
        = obsVisits.getD ((specObsIndex visits obsVisits).getD k 0) 0 := by
      rw [List.getD_eq_getElem _ _ hj]
      exact hjv
    have hsearch : searchsorted visits
        (obsVisits.getD ((specObsIndex visits obsVisits).getD k 0) 0) = j :=
      searchsorted_eq_of_getD visits _ hsorted' j hj hjd
    rw [hmap, hsearch]
    exact ⟨hj, hjd⟩

/-- Witness for C3 at the spec's scenario (§8.3): visit list `[10, 20, 30]`,
observation visits `[30, 5, 20, 10, 99]`: exactly the observations at
positions 0, 2, 3 are selected, in original order, and their visit positions
are `[2, 1, 0]`; visits 5 and 99 are excluded. -/
theorem claim_C3_index_translation_witness :
    specObsIndex [10, 20, 30] [30, 5, 20, 10, 99] = [0, 2, 3] ∧
    computeVisitIndex [10, 20, 30] [30, 5, 20, 10, 99]
      (specObsIndex [10, 20, 30] [30, 5, 20, 10, 99]) = [2, 1, 0] ∧
    (specObsIndex [10, 20, 30] [30, 5, 20, 10, 99]).Pairwise (· < ·) := by
  refine ⟨by decide, by decide, ?_⟩
  exact (claim_C3_index_translation [10, 20, 30] [30, 5, 20, 10, 99]
    (by decide)).2.1

/-! ## LUT build task (`fgcm/fgcmMakeLut.py`) -/

/-- Python runtime errors relevant to `_fgcmMakeLut`: an `AttributeError`
from reading a config attribute that was never declared, a `NameError` from
reading a local name that was never bound. -/
inductive PyErr where
  | attributeError : PyErr
  | nameError : PyErr
  deriving DecidableEq, Repr

/-- The butler-backed persistent store as `_fgcmMakeLut` sees it: whether the
`fgcmLut` and `fgcmLookUpTable` datasets exist, and the ordered list of
dataset names written with `butler.put`. -/
structure LutStore where
  hasFgcmLut : Bool
  hasLookUpTable : Bool
  puts : List String
  deriving DecidableEq, Repr

/-- The attribute names declared on `FgcmMakeLutConfig` (lines 30-144):
these are the only attributes `self.config` has. -/
def makeLutConfigAttrs : List String :=
  ["bands", "elevation", "pmbRange", "pmbSteps", "pwvRange", "pwvSteps",
   "o3Range", "o3Steps", "tauRange", "tauSteps", "alphaRange", "alphaSteps",
   "zenithRange", "zenithSteps", "pmbStd", "pwvStd", "o3Std", "tauStd",
   "alphaStd", "airmassStd", "lambdaNorm", "lambdaStep", "lambdaRange"]

/-- The `self.config.<attr>` reads performed while assembling `lutConfig`
(lines 261-284), in program order.  Line 278 reads `p3Std`
(`lutConfig['o3Std'] = self.config.p3Std`). -/
def makeLutConfigAccessOrder : List String :=
  ["elevation", "bands", "pmbRange", "pmbSteps", "pwvRange", "pwvSteps",
   "o3Range", "o3Steps", "tauRange", "tauSteps", "alphaRange", "alphaSteps",
   "zenithRange", "zenithSteps", "pmbStd", "pwvStd", "p3Std", "tauStd",
   "alphaStd", "airmassStd", "lambdaRange", "lambdaStep", "lambdaNorm"]

/-- Python attribute access on the config object: succeeds exactly for the
declared attributes, raises `AttributeError` otherwise. -/
def getConfigAttr (name : String) : Except PyErr Unit :=
  if name ∈ makeLutConfigAttrs then Except.ok () else Except.error PyErr.attributeError

/-- Performs a sequence of config attribute reads, stopping at the first
failure. -/
def accessConfigAttrs : List String → Except PyErr Unit
  | [] => Except.ok ()
  | n :: rest =>
    match getConfigAttr n with
    | Except.ok _ => accessConfigAttrs rest
    | Except.error e => Except.error e

/-- The local names bound in `_fgcmMakeLut` by the time the throughput loop
body (lines 301-308) runs: parameters, earlier assignments (line 294 binds
`throughLambda`), and the loop variables of lines 301 and 304. -/
def throughputLoopLocals : List String :=
  ["self", "butler", "camera", "nCcd", "lutConfig", "throughLambda", "tput",
   "throughputDict", "i", "b", "tDict", "ccdIndex", "detector"]

/-- The local names the throughput loop body reads, in program order:
line 303 reads `throughputLambda` (only `throughLambda` was assigned) and
line 306 reads `band` (the loop variable is `b`) and `throughputLambda`
again. -/
def throughputLoopNameReads : List String :=
  ["throughputLambda", "camera", "tput", "detector", "band",
   "throughputLambda"]

/-- Performs a sequence of local-name reads against a scope, raising
`NameError` at the first unbound name. -/
def readLocalNames (scope : List String) : List String → Except PyErr Unit
  | [] => Except.ok ()
  | n :: rest =>
    if n ∈ scope then readLocalNames scope rest
    else Except.error PyErr.nameError

/-- Embedding of `FgcmMakeLutTask._fgcmMakeLut` (lines 245-417): an early
return when `fgcmLookUpTable` already exists (lines 249-251); otherwise the
`lutConfig` assembly performs the config attribute reads of lines 261-284,
the throughput loop performs the local-name reads of lines 301-308, and only
after everything succeeded is the single complete record written with
`butler.put(lutCat, 'fgcmLookUpTable')` (line 415).  A raised error leaves
the store unchanged. -/
def fgcmMakeLutInner (s : LutStore) : LutStore × Option PyErr :=
  if s.hasLookUpTable then (s, none)
  else
    match accessConfigAttrs makeLutConfigAccessOrder with
    | Except.error e => (s, some e)
    | Except.ok _ =>
      match readLocalNames throughputLoopLocals throughputLoopNameReads with
      | Except.error e => (s, some e)
      | Except.ok _ =>
        ({ s with puts := s.puts ++ ["fgcmLookUpTable"] }, none)

/-- Embedding of `FgcmMakeLutTask.run` (lines 227-243): `_fgcmMakeLut` is
invoked only when the `fgcmLut` dataset does not exist. -/
def fgcmMakeLutRun (s : LutStore) : LutStore × Option PyErr :=
  if !s.hasFgcmLut then fgcmMakeLutInner s else (s, none)

/-- The config-dict assembly stops with `AttributeError` at the `p3Std`
read. -/
theorem accessConfigAttrs_raises :
    accessConfigAttrs makeLutConfigAccessOrder
      = Except.error PyErr.attributeError := rfl

/-- The throughput loop body stops with `NameError` at the
`throughputLambda` read. -/
theorem readLocalNames_raises :
    readLocalNames throughputLoopLocals throughputLoopNameReads
      = Except.error PyErr.nameError := rfl

/-- Shared helper: without the look-up-table record, `_fgcmMakeLut` raises
`AttributeError` and leaves the store unchanged. -/
theorem fgcmMakeLutInner_eq_error (s : LutStore)
    (h : s.hasLookUpTable = false) :
    fgcmMakeLutInner s = (s, some PyErr.attributeError) := by
  rw [fgcmMakeLutInner, if_neg (by rw [h]; exact Bool.false_ne_true),
    accessConfigAttrs_raises]

/-- C10: on every invocation in which the look-up-table record does not
already exist, the build path raises before persisting anything: the config
dict reads the undeclared attribute `p3Std` (the declared attribute is
`o3Std`), so the `AttributeError` branch is always reached, the store is
unchanged and no LUT record is ever written; moreover the later throughput
loop reads the never-bound names `throughputLambda` (only `throughLambda` is
assigned) and `band` (the loop variable is `b`), so it too would raise. -/
theorem claim_C10_lut_build_always_raises (s : LutStore)
    (h : s.hasLookUpTable = false) :
    ("p3Std" ∈ makeLutConfigAccessOrder ∧ "p3Std" ∉ makeLutConfigAttrs ∧
      "o3Std" ∈ makeLutConfigAttrs) ∧
    ("throughputLambda" ∈ throughputLoopNameReads ∧
      "throughputLambda" ∉ throughputLoopLocals ∧
      "throughLambda" ∈ throughputLoopLocals ∧
      "band" ∈ throughputLoopNameReads ∧ "band" ∉ throughputLoopLocals ∧
      "b" ∈ throughputLoopLocals) ∧
    fgcmMakeLutInner s = (s, some PyErr.attributeError) ∧
    (fgcmMakeLutInner s).1.puts = s.puts := by
  have heq := fgcmMakeLutInner_eq_error s h
  exact ⟨by decide, by decide, heq, by rw [heq]⟩

/-- Witness for C10 at a concrete store without the look-up-table record. -/
theorem claim_C10_lut_build_always_raises_witness :
    fgcmMakeLutInner ⟨true, false, ["calexp"]⟩
      = (⟨true, false, ["calexp"]⟩, some PyErr.attributeError) :=
  (claim_C10_lut_build_always_raises ⟨true, false, ["calexp"]⟩ rfl).2.2.1

/-- C9, evaluated on the code as written: on a store without the
look-up-table record the build raises `AttributeError` (reading `p3Std`)
before assembling or writing anything, so the claimed single complete-record
write never happens — the store keeps its (empty) write list; when the
record already exists, the early return writes nothing either. -/
theorem claim_C9_no_write_ever_happens :
    fgcmMakeLutInner ⟨false, false, []⟩
      = (⟨false, false, []⟩, some PyErr.attributeError) ∧
    (fgcmMakeLutInner ⟨false, false, []⟩).1.puts = [] ∧
    fgcmMakeLutInner ⟨false, true, []⟩ = (⟨false, true, []⟩, none) ∧
    (fgcmMakeLutInner ⟨false, true, []⟩).1.puts = [] := by
  refine ⟨?_, ?_, rfl, rfl⟩
  · exact fgcmMakeLutInner_eq_error ⟨false, false, []⟩ rfl
  · rw [fgcmMakeLutInner_eq_error ⟨false, false, []⟩ rfl]

/-! ## Parameter-axis construction (GridBuilder contract) -/

/-- The GridBuilder's configuration failure. -/
inductive LutConfigError where
  | configurationError : LutConfigError
  deriving DecidableEq, Repr

/-- Modelled from the spec: the parameter-axis construction happens inside
the external engine's `fgcm.FgcmLUTMaker`, to which `_fgcmMakeLut` only
passes the per-axis `(min, max, stepCount)` triples (lines 260-287 of
`fgcmMakeLut.py`); the axis-building code itself is not among the sources at
hand.  Spec §4.1: "Builds each ParameterAxis as stepCount evenly spaced
samples spanning [min, max]; fails with a ConfigurationError if
stepCount < 1 or max ≤ min." -/
def buildParameterAxis (lo hi : ℚ) (stepCount : ℕ) :
    Except LutConfigError (List ℚ) :=
  if stepCount < 1 ∨ hi ≤ lo then
    Except.error LutConfigError.configurationError
  else
    Except.ok ((List.range stepCount).map (fun (i : ℕ) =>
      if stepCount = 1 then lo
      else lo + (i : ℚ) * (hi - lo) / ((stepCount : ℚ) - 1)))

/-- C6: for every axis configuration triple, the builder fails with a
`ConfigurationError` exactly when `stepCount < 1` or `max ≤ min`; on success
the axis has exactly `stepCount` samples, starts at `min`, ends at `max`
(when at least two samples exist), has equal consecutive spacing
`(max - min) / (stepCount - 1)`, and is strictly increasing. -/
theorem claim_C6_axis_construction (lo hi : ℚ) (sc : ℕ) :
    (buildParameterAxis lo hi sc
        = Except.error LutConfigError.configurationError
      ↔ sc < 1 ∨ hi ≤ lo) ∧
    (∀ axis, buildParameterAxis lo hi sc = Except.ok axis →
      axis.length = sc ∧
      (1 ≤ sc → axis.getD 0 0 = lo) ∧
      (2 ≤ sc → axis.getD (sc - 1) 0 = hi) ∧
      (∀ i, i + 1 < sc →
        axis.getD (i + 1) 0 - axis.getD i 0 = (hi - lo) / ((sc : ℚ) - 1)) ∧
      axis.Pairwise (· < ·)) := by
  by_cases hbad : sc < 1 ∨ hi ≤ lo
  · constructor
    · exact ⟨fun _ => hbad, fun _ => by rw [buildParameterAxis, if_pos hbad]⟩
    · intro axis hax
      rw [buildParameterAxis, if_pos hbad] at hax
      cases hax
  · have hsc : 1 ≤ sc := by
      rcases Nat.lt_or_ge sc 1 with h | h
      · exact absurd (Or.inl h) hbad
      · exact h
    have hlh : lo < hi := by
      rcases lt_or_le lo hi with h | h
      · exact h
      · exact absurd (Or.inr h) hbad
    constructor
    · constructor
      · intro h
        rw [buildParameterAxis, if_neg hbad] at h
        cases h
      · intro h
        exact absurd h hbad
    · intro axis hax
      rw [buildParameterAxis, if_neg hbad] at hax
      injection hax with hax
      subst hax
      have hlen : ((List.range sc).map (fun (i : ℕ) =>
          if sc = 1 then lo
          else lo + (i : ℚ) * (hi - lo) / ((sc : ℚ) - 1))).length = sc := by
        rw [List.length_map, List.length_range]
      have hget : ∀ k, k < sc → ((List.range sc).map (fun (i : ℕ) =>
          if sc = 1 then lo
          else lo + (i : ℚ) * (hi - lo) / ((sc : ℚ) - 1))).getD k 0
          = if sc = 1 then lo
            else lo + (k : ℚ) * (hi - lo) / ((sc : ℚ) - 1) := by
        intro k hk
        have hk' : k < ((List.range sc).map (fun (i : ℕ) =>
            if sc = 1 then lo
            else lo + (i : ℚ) * (hi - lo) / ((sc : ℚ) - 1))).length := by
          rw [hlen]
          exact hk
        rw [List.getD_eq_getElem _ _ hk', List.getElem_map, List.getElem_range]
      refine ⟨hlen, ?_, ?_, ?_, ?_⟩
      · intro _
        rw [hget 0 (by omega)]
        by_cases h1 : sc = 1
        · simp [h1]
        · simp [h1]
      · intro hsc2
        have hne : ((sc : ℚ) - 1) ≠ 0 := by
          have h2 : (2 : ℚ) ≤ (sc : ℚ) := by exact_mod_cast hsc2
          intro hzero
          have : (sc : ℚ) = 1 := by linarith
          linarith
        have h1 : sc ≠ 1 := by omega
        rw [hget (sc - 1) (by omega), if_neg h1]
        have hcast : ((sc - 1 : ℕ) : ℚ) = (sc : ℚ) - 1 := by
          have : (1 : ℕ) ≤ sc := hsc
          push_cast [this]
          ring
        rw [hcast, mul_div_assoc, mul_div_cancel₀ _ hne]
        ring
      · intro i hi1
        have h1 : sc ≠ 1 := by omega
        rw [hget (i + 1) (by omega), hget i (by omega), if_neg h1, if_neg h1]
        push_cast
        ring
      · rw [List.pairwise_iff_getElem]
        intro i j hilt hjlt hij
        rw [List.length_map, List.length_range] at hilt hjlt
        rw [List.getElem_map, List.getElem_map, List.getElem_range,
          List.getElem_range]
        by_cases h1 : sc = 1
        · omega
        · rw [if_neg h1, if_neg h1]
          have hD : (0 : ℚ) < (sc : ℚ) - 1 := by
            have h2 : (2 : ℕ) ≤ sc := by omega
            have h2' : (2 : ℚ) ≤ (sc : ℚ) := by exact_mod_cast h2
            linarith
          have hX : (0 : ℚ) < hi - lo := by linarith
          have hij' : (i : ℚ) < (j : ℚ) := by exact_mod_cast hij
          have hmul : (i : ℚ) * (hi - lo) < (j : ℚ) * (hi - lo) :=
            mul_lt_mul_of_pos_right hij' hX
          have hdiv := (div_lt_div_iff_of_pos_right hD).mpr hmul
          linarith

/-- Witness for C6: the malformed triple `(0, 2, 0)` fails, and the triple
`(0, 2, 5)` yields the five evenly spaced samples `[0, 1/2, 1, 3/2, 2]`. -/
theorem claim_C6_axis_construction_witness :
    buildParameterAxis 0 2 0 = Except.error LutConfigError.configurationError ∧
    buildParameterAxis 0 2 5 = Except.ok [0, 1/2, 1, 3/2, 2] ∧
    ([0, 1/2, 1, 3/2, (2 : ℚ)].length = 5 ∧
      [0, 1/2, 1, 3/2, (2 : ℚ)].getD 0 0 = 0 ∧
      [0, 1/2, 1, 3/2, (2 : ℚ)].getD 4 0 = 2) := by
  have heval : buildParameterAxis 0 2 5 = Except.ok [0, 1/2, 1, 3/2, 2] := by
    rw [buildParameterAxis, if_neg (by norm_num)]
    have hr : List.range 5 = [0, 1, 2, 3, 4] := rfl
    rw [hr]
    norm_num
  have h := (claim_C6_axis_construction 0 2 5).2 _ heval
  refine ⟨?_, heval, h.1, h.2.1 (by omega), ?_⟩
  · exact (claim_C6_axis_construction 0 2 0).1.mpr (Or.inl (by omega))
  · have h4 := h.2.2.1 (by omega)
    exact h4

/-! ## Reference catalog loader (`fgcmLoadReferenceCatalog.py`) -/

/-- `RuntimeError`s the loader can raise: line 337 ("Could not find any valid
flux field(s)"), line 253 (color-term corrections with an a.net refcat), the
raise inside `getColorterm(..., doRaise=True)` at lines 261-262, and the
failing `refCat[fluxField]` column access of the no-colorterm branch
(line 285) when `fluxField` is `None` or unknown. -/
inductive RefError where
  | noReferenceFilter : RefError
  | anetRefcat : RefError
  | colortermNotFound : RefError
  | missingFluxColumn : RefError
  deriving DecidableEq, Repr

/-- A star of the raw reference catalog (the coordinate columns the loader
copies; degrees after the unit conversion of lines 239-241). -/
structure RefCatStar where
  ra : ℚ
  dec : ℚ
  deriving DecidableEq, Repr

/-- Modelled from the spec: the external `ColortermLibrary` collaborator
(§1: color-term photometry is an external interface).  A color term, once
looked up, yields corrected magnitudes and errors for the whole raw
reference catalog (`colorterm.getCorrectedMagnitudes(refCat, filterName)`,
line 264), here given as per-star lists. -/
structure Colorterm where
  refMag : List ℚ
  refMagErr : List ℚ
  deriving DecidableEq, Repr

/-- One row of the returned `fgcmRefCat` recarray (lines 225-228), with the
per-filter magnitude columns. -/
structure RefStarRow where
  ra : ℚ
  dec : ℚ
  refMag : List ℚ
  refMagErr : List ℚ
  deriving DecidableEq, Repr

/-- Default row used with `List.getD` on catalogs. -/
def dRow : RefStarRow := ⟨0, 0, [], []⟩

/-- The parts of `FgcmLoadReferenceCatalogConfig` the loader reads:
`refFilterMap` (a dict, looked up at lines 317 and 344), `applyColorTerms`
(line 247) and the color-term library (lines 261-262). -/
structure RefLoadConfig where
  refFilterMap : List (String × String)
  applyColorTerms : Bool
  colorterms : List (String × Colorterm)
  deriving DecidableEq, Repr

/-- The external collaborators of the loader, as inputs: which reference
filter names `refObjLoader.loadSkyCircle` accepts (a `RuntimeError` is caught
for the others, lines 324-334), which reference filter names have a flux
field in the catalog schema (`getRefFluxField` raises `RuntimeError` for the
others, lines 350-354), the loader's `ref_dataset_name` attribute (`none`
models the `AttributeError` of lines 248-253), the sky-circle star list, and
the raw flux columns (flux, fluxErr) keyed by flux field. -/
structure RefObjLoader where
  loadable : List String
  schemaFields : List String
  refDatasetName : Option String
  refCat : List RefCatStar
  fluxData : List (String × (List ℚ × List ℚ))
  deriving DecidableEq, Repr

/-- Python dict lookup on an association list. -/
def lookupAssoc {α : Type} : List (String × α) → String → Option α
  | [], _ => none
  | (k, v) :: rest, key => if k = key then some v else lookupAssoc rest key

/-- First loop of `_determine_flux_fields` (lines 314-334): walk the camera
filter list, skipping filters absent from `refFilterMap` (the `KeyError` is
caught and only warned about) and reference filters the loader cannot load
(the `RuntimeError` is caught); the first success is kept. -/
def findReferenceFilter (refFilterMap : List (String × String))
    (loadable : List String) : List String → Option String
  | [] => none
  | f :: rest =>
    match lookupAssoc refFilterMap f with
    | none => findReferenceFilter refFilterMap loadable rest
    | some rf =>
      if rf ∈ loadable then some rf
      else findReferenceFilter refFilterMap loadable rest

/-- Second loop of `_determine_flux_fields` (lines 341-359): per camera
filter, `None` when the filter is absent from `refFilterMap` (`KeyError`
caught) or when the reference filter has no flux field in the schema
(`getRefFluxField` raising `RuntimeError`, caught); the flux-field name is
modelled by the reference filter name itself (its exact formatting lives in
the external `getRefFluxField`). -/
def determineFluxFields (refFilterMap : List (String × String))
    (schemaFields : List String) (filterList : List String) :
    List (Option String) :=
  filterList.map (fun f =>
    match lookupAssoc refFilterMap f with
    | none => none
    | some rf => if rf ∈ schemaFields then some rf else none)

/-- Numpy boolean-mask selection `xs[selected]`. -/
def selectMask {α : Type} (mask : List Bool) (xs : List α) : List α :=
  ((xs.zip mask).filter (fun p => p.2)).map (fun p => p.1)

/-- Lines 270-275: keep, per selected star, the corrected magnitude for
column `i` when it passes the validity cut
(`mag < 90 ∧ err < 90 ∧ err > 0`; `nan_to_num` is the identity on the
rationals modelling the finite floats), leaving other stars of the column at
the sentinel. -/
def setColumnCT (cat : List RefStarRow) (i : ℕ) (mags errs : List ℚ) :
    List RefStarRow :=
  cat.enum.map (fun p =>
    if mags.getD p.1 0 < 90 ∧ errs.getD p.1 0 < 90 ∧ 0 < errs.getD p.1 0 then
      { p.2 with refMag := p.2.refMag.set i (mags.getD p.1 0),
                 refMagErr := p.2.refMagErr.set i (errs.getD p.1 0) }
    else p.2)

/-- The `applyColorTerms` loop of lines 255-275 over
`zip(fluxFilters, fluxFields)` with running index `i`: a band with
`fluxField is None` is skipped (`continue`, lines 256-257); otherwise
`getColorterm(filterName, ..., doRaise=True)` raises when the camera filter
has no color term, else the column is filled from the corrected
magnitudes. -/
def applyColortermsLoop (colorterms : List (String × Colorterm))
    (mask : List Bool) :
    List (String × Option String) → ℕ → List RefStarRow →
    Except RefError (List RefStarRow)
  | [], _, cat => Except.ok cat
  | (_, none) :: rest, i, cat =>
    applyColortermsLoop colorterms mask rest (i + 1) cat
  | (f, some _) :: rest, i, cat =>
    match lookupAssoc colorterms f with
    | none => Except.error RefError.colortermNotFound
    | some ct =>
      applyColortermsLoop colorterms mask rest (i + 1)
        (setColumnCT cat i (selectMask mask ct.refMag)
          (selectMask mask ct.refMagErr))

/-- Lines 282-291 column fill of the no-colorterm branch: keep positive
fluxes with positive errors, converting through the external
`(flux * units.Jy).to_value(units.ABmag)` and `abMagErrFromFluxErr`, given
here as opaque functions. -/
def setColumnFlux (cat : List RefStarRow) (i : ℕ) (flux fluxErr : List ℚ)
    (jyToABmag : ℚ → ℚ) (abErr : ℚ → ℚ → ℚ) : List RefStarRow :=
  cat.enum.map (fun p =>
    if 0 < flux.getD p.1 0 ∧ 0 < fluxErr.getD p.1 0 then
      { p.2 with refMag := p.2.refMag.set i (jyToABmag (flux.getD p.1 0)),
                 refMagErr := p.2.refMagErr.set i
                   (abErr (fluxErr.getD p.1 0) (flux.getD p.1 0)) }
    else p.2)

/-- The no-colorterm loop of lines 277-291: unlike the color-term branch it
has no `fluxField is None` guard — `refCat[fluxField]` with a `None` or
unknown key raises. -/
def applyFluxLoop (fluxData : List (String × (List ℚ × List ℚ)))
    (jyToABmag : ℚ → ℚ) (abErr : ℚ → ℚ → ℚ) (mask : List Bool) :
    List (String × Option String) → ℕ → List RefStarRow →
    Except RefError (List RefStarRow)
  | [], _, cat => Except.ok cat
  | (_, none) :: _, _, _ => Except.error RefError.missingFluxColumn
  | (_, some ff) :: rest, i, cat =>
    match lookupAssoc fluxData ff with
    | none => Except.error RefError.missingFluxColumn
    | some fd =>
      applyFluxLoop fluxData jyToABmag abErr mask rest (i + 1)
        (setColumnFlux cat i (selectMask mask fd.1) (selectMask mask fd.2)
          jyToABmag abErr)

/-- Embedding of `getFgcmReferenceStarsSkyCircle` (lines 172-293): determine
the reference filter and the per-band flux fields (raising when no camera
filter yields a loadable reference filter, line 337), select the good
sources, return an empty catalog when nothing was selected (lines 229-231),
initialize every magnitude column to the sentinel 99 (lines 244-245), then
fill the columns band by band through the color-term branch or the direct
flux branch. -/
def getFgcmReferenceStarsSkyCircle (cfg : RefLoadConfig)
    (loader : RefObjLoader) (selected : List Bool) (filterList : List String)
    (jyToABmag : ℚ → ℚ) (abErr : ℚ → ℚ → ℚ) :
    Except RefError (List RefStarRow) :=
  match findReferenceFilter cfg.refFilterMap loader.loadable filterList with
  | none => Except.error RefError.noReferenceFilter
  | some _ =>
    let fluxFields := determineFluxFields cfg.refFilterMap loader.schemaFields
      filterList
    let stars := selectMask selected loader.refCat
    let base : List RefStarRow := stars.map (fun s =>
      ⟨s.ra, s.dec, List.replicate filterList.length 99,
        List.replicate filterList.length 99⟩)
    if stars.length = 0 then Except.ok []
    else if cfg.applyColorTerms then
      match loader.refDatasetName with
      | none => Except.error RefError.anetRefcat
      | some _ =>
        applyColortermsLoop cfg.colorterms selected
          (filterList.zip fluxFields) 0 base
    else
      applyFluxLoop loader.fluxData jyToABmag abErr selected
        (filterList.zip fluxFields) 0 base

theorem listGetD_set_ne (l : List ℚ) (i j : ℕ) (x d : ℚ) (h : i ≠ j) :
    (l.set i x).getD j d = l.getD j d := by
  rw [List.getD_eq_getElem?_getD, List.getD_eq_getElem?_getD,
    List.getElem?_set_ne h]

theorem setColumnCT_length (cat : List RefStarRow) (i : ℕ)
    (mags errs : List ℚ) :
    (setColumnCT cat i mags errs).length = cat.length := by
  rw [setColumnCT, List.length_map, List.enum_length]

/-- Filling column `i` does not change any other magnitude column of any
row. -/
theorem setColumnCT_getD (cat : List RefStarRow) (i : ℕ) (mags errs : List ℚ)
    (j : ℕ) (hij : i ≠ j) (r : ℕ) (hr : r < cat.length) :
    ((setColumnCT cat i mags errs).getD r dRow).refMag.getD j 0
      = (cat.getD r dRow).refMag.getD j 0 ∧
    ((setColumnCT cat i mags errs).getD r dRow).refMagErr.getD j 0
      = (cat.getD r dRow).refMagErr.getD j 0 := by
  have hr' : r < (setColumnCT cat i mags errs).length := by
    rw [setColumnCT_length]
    exact hr
  rw [List.getD_eq_getElem _ _ hr', List.getD_eq_getElem _ _ hr]
  simp only [setColumnCT, List.getElem_map, List.getElem_enum]
  by_cases hc : mags.getD r 0 < 90 ∧ errs.getD r 0 < 90 ∧ 0 < errs.getD r 0
  · rw [if_pos hc]
    exact ⟨listGetD_set_ne _ i j _ 0 hij, listGetD_set_ne _ i j _ 0 hij⟩
  · rw [if_neg hc]
    exact ⟨rfl, rfl⟩

theorem applyColortermsLoop_length (cts : List (String × Colorterm))
    (mask : List Bool) :
    ∀ (l : List (String × Option String)) (i0 : ℕ)
      (cat cat' : List RefStarRow),
      applyColortermsLoop cts mask l i0 cat = Except.ok cat' →
      cat'.length = cat.length := by
  intro l
  induction l with
  | nil =>
    intro i0 cat cat' h
    simp only [applyColortermsLoop] at h
    injection h with h
    rw [h]
  | cons hd rest ih =>
    obtain ⟨f, ff⟩ := hd
    intro i0 cat cat' h
    cases ff with
    | none =>
      simp only [applyColortermsLoop] at h
      exact ih (i0 + 1) cat cat' h
    | some s =>
      simp only [applyColortermsLoop] at h
      cases hlk : lookupAssoc cts f with
      | none =>
        rw [hlk] at h
        exact Except.noConfusion h
      | some ct =>
        rw [hlk] at h
        have hrec := ih (i0 + 1) _ cat' h
        rw [hrec, setColumnCT_length]

/-- Columns the loop never writes to (every list entry either has no flux
field or sits at a different running index) are carried through unchanged,
row by row. -/
theorem applyColortermsLoop_preserves_column
    (cts : List (String × Colorterm)) (mask : List Bool) :
    ∀ (l : List (String × Option String)) (i0 : ℕ)
      (cat cat' : List RefStarRow),
      applyColortermsLoop cts mask l i0 cat = Except.ok cat' →
      ∀ j, (∀ k, k < l.length →
          (l.getD k ("", none)).2 = none ∨ i0 + k ≠ j) →
        ∀ r, r < cat.length →
          (cat'.getD r dRow).refMag.getD j 0
            = (cat.getD r dRow).refMag.getD j 0 ∧
          (cat'.getD r dRow).refMagErr.getD j 0
            = (cat.getD r dRow).refMagErr.getD j 0 := by
  intro l
  induction l with
  | nil =>
    intro i0 cat cat' h j hcond r hr
    simp only [applyColortermsLoop] at h
    injection h with h
    rw [h]
    exact ⟨rfl, rfl⟩
  | cons hd rest ih =>
    obtain ⟨f, ff⟩ := hd
    intro i0 cat cat' h j hcond r hr
    cases ff with
    | none =>
      simp only [applyColortermsLoop] at h
      refine ih (i0 + 1) cat cat' h j ?_ r hr
      intro k hk
      have hc := hcond (k + 1) (by simp only [List.length_cons]; omega)
      rw [List.getD_cons_succ] at hc
      rcases hc with hnone | hne
      · exact Or.inl hnone
      · right
        omega
    | some s =>
      have h0 := hcond 0 (by simp only [List.length_cons]; omega)
      rw [List.getD_cons_zero] at h0
      rcases h0 with hnone | hne
      · exact Option.noConfusion hnone
      · simp only [applyColortermsLoop] at h
        cases hlk : lookupAssoc cts f with
        | none =>
          rw [hlk] at h
          exact Except.noConfusion h
        | some ct =>
          rw [hlk] at h
          have hlen : (setColumnCT cat i0 (selectMask mask ct.refMag)
              (selectMask mask ct.refMagErr)).length = cat.length :=
            setColumnCT_length cat i0 _ _
          have hcond' : ∀ k, k < rest.length →
              (rest.getD k ("", none)).2 = none ∨ (i0 + 1) + k ≠ j := by
            intro k hk
            have hc := hcond (k + 1) (by simp only [List.length_cons]; omega)
            rw [List.getD_cons_succ] at hc
            rcases hc with hnone | hne'
            · exact Or.inl hnone
            · right
              omega
          have hrec := ih (i0 + 1) _ cat' h j hcond' r
            (by rw [hlen]; exact hr)
          have hset := setColumnCT_getD cat i0 (selectMask mask ct.refMag)
            (selectMask mask ct.refMagErr) j (by omega) r hr
          exact ⟨hrec.1.trans hset.1, hrec.2.trans hset.2⟩

/-- If some band has a valid flux field but no color term, the loop raises
(`getColorterm` with `doRaise=True`). -/
theorem applyColortermsLoop_error_of_missing
    (cts : List (String × Colorterm)) (mask : List Bool) :
    ∀ (l : List (String × Option String)) (i0 : ℕ) (cat : List RefStarRow),
      (∃ p ∈ l, p.2.isSome = true ∧ lookupAssoc cts p.1 = none) →
      applyColortermsLoop cts mask l i0 cat
        = Except.error RefError.colortermNotFound := by
  intro l
  induction l with
  | nil =>
    intro i0 cat h
    obtain ⟨p, hp, _⟩ := h
    exact absurd hp (List.not_mem_nil p)
  | cons hd rest ih =>
    obtain ⟨f, ff⟩ := hd
    intro i0 cat h
    cases ff with
    | none =>
      simp only [applyColortermsLoop]
      obtain ⟨p, hp, hsome, hnone⟩ := h
      rcases List.mem_cons.mp hp with rfl | hp'
      · simp at hsome
      · exact ih (i0 + 1) cat ⟨p, hp', hsome, hnone⟩
    | some s =>
      cases hlk : lookupAssoc cts f with
      | none =>
        simp only [applyColortermsLoop]
        rw [hlk]
      | some ct =>
        simp only [applyColortermsLoop]
        rw [hlk]
        obtain ⟨p, hp, hsome, hnone⟩ := h
        rcases List.mem_cons.mp hp with rfl | hp'
        · rw [hnone] at hlk
          exact Option.noConfusion hlk
        · exact ih (i0 + 1) _ ⟨p, hp', hsome, hnone⟩

/-- If every band with a valid flux field has a color term, the loop
completes without raising. -/
theorem applyColortermsLoop_ok_of_found
    (cts : List (String × Colorterm)) (mask : List Bool) :
    ∀ (l : List (String × Option String)) (i0 : ℕ) (cat : List RefStarRow),
      (∀ p ∈ l, p.2.isSome = true → (lookupAssoc cts p.1).isSome = true) →
      ∃ cat', applyColortermsLoop cts mask l i0 cat = Except.ok cat' := by
  intro l
  induction l with
  | nil =>
    intro i0 cat _
    exact ⟨cat, rfl⟩
  | cons hd rest ih =>
    obtain ⟨f, ff⟩ := hd
    intro i0 cat hall
    cases ff with
    | none =>
      simp only [applyColortermsLoop]
      exact ih (i0 + 1) cat
        (fun p hp hs => hall p (List.mem_cons_of_mem _ hp) hs)
    | some s =>
      have hf := hall (f, some s) (List.mem_cons_self _ _) rfl
      cases hlk : lookupAssoc cts f with
      | none =>
        rw [hlk] at hf
        exact Bool.noConfusion hf
      | some ct =>
        simp only [applyColortermsLoop]
        rw [hlk]
        exact ih (i0 + 1) _
          (fun p hp hs => hall p (List.mem_cons_of_mem _ hp) hs)

/-- Unfolding of the sky-circle loader on the color-term path with all its
guards resolved. -/
theorem skyCircle_ct_eq (cfg : RefLoadConfig) (loader : RefObjLoader)
    (selected : List Bool) (filterList : List String) (jy : ℚ → ℚ)
    (ab : ℚ → ℚ → ℚ) (rf dn : String)
    (hrf : findReferenceFilter cfg.refFilterMap loader.loadable filterList
      = some rf)
    (hct : cfg.applyColorTerms = true)
    (hdn : loader.refDatasetName = some dn)
    (hne : ¬ (selectMask selected loader.refCat).length = 0) :
    getFgcmReferenceStarsSkyCircle cfg loader selected filterList jy ab
      = applyColortermsLoop cfg.colorterms selected
          (filterList.zip (determineFluxFields cfg.refFilterMap
            loader.schemaFields filterList)) 0
          ((selectMask selected loader.refCat).map (fun s =>
            ⟨s.ra, s.dec, List.replicate filterList.length 99,
              List.replicate filterList.length 99⟩)) := by
  rw [getFgcmReferenceStarsSkyCircle, hrf]
  simp only [hct, hdn, if_neg hne, if_true]

/-- Unfolding of the sky-circle loader when no source is selected. -/
theorem skyCircle_empty_eq (cfg : RefLoadConfig) (loader : RefObjLoader)
    (selected : List Bool) (filterList : List String) (jy : ℚ → ℚ)
    (ab : ℚ → ℚ → ℚ) (rf : String)
    (hrf : findReferenceFilter cfg.refFilterMap loader.loadable filterList
      = some rf)
    (hz : (selectMask selected loader.refCat).length = 0) :
    getFgcmReferenceStarsSkyCircle cfg loader selected filterList jy ab
      = Except.ok [] := by
  rw [getFgcmReferenceStarsSkyCircle, hrf]
  simp only [if_pos hz]

/-- C7 counterexample: two bands `g`, `r`, both mapped in `refFilterMap` with
flux fields in the schema, one selected star, and a color-term library that
covers `g` only.  The claim says band `r`'s reference magnitudes are merely
skipped (left at the sentinel 99) and the run continues; the code instead
aborts the whole run, because `getColorterm` is called with `doRaise=True`
(lines 261-262). -/
theorem claim_C7_colorterm_abort_counterexample :
    getFgcmReferenceStarsSkyCircle
      ⟨[("g", "g"), ("r", "r")], true, [("g", ⟨[15], [1]⟩)]⟩
      ⟨["g"], ["g", "r"], some "ps1", [⟨10, 20⟩], []⟩
      [true] ["g", "r"] (fun x => x) (fun e _ => e)
      = Except.error RefError.colortermNotFound := rfl

/-- C7 (amended): for every band whose reference-filter lookup fails (no
`refFilterMap` entry, or no flux field in the reference schema), only that
band's reference magnitudes are skipped — every returned row keeps the
sentinel 99 in that band's columns — and the run continues for the remaining
bands (it completes whenever a reference filter was found and every band
with a valid flux field has a color term); but a band that has a valid flux
field and no color term aborts the whole run with an error. -/
theorem claim_C7_sentinel_skip_and_colorterm_abort (cfg : RefLoadConfig)
    (loader : RefObjLoader) (selected : List Bool) (filterList : List String)
    (jy : ℚ → ℚ) (ab : ℚ → ℚ → ℚ) (hct : cfg.applyColorTerms = true) :
    (∀ cat, getFgcmReferenceStarsSkyCircle cfg loader selected filterList jy ab
        = Except.ok cat →
      ∀ i, i < filterList.length →
        (determineFluxFields cfg.refFilterMap loader.schemaFields
          filterList).getD i none = none →
        ∀ row ∈ cat, row.refMag.getD i 0 = 99 ∧ row.refMagErr.getD i 0 = 99) ∧
    ((findReferenceFilter cfg.refFilterMap loader.loadable
        filterList).isSome = true →
      loader.refDatasetName.isSome = true →
      (∀ p ∈ filterList.zip (determineFluxFields cfg.refFilterMap
          loader.schemaFields filterList),
        p.2.isSome = true → (lookupAssoc cfg.colorterms p.1).isSome = true) →
      ∃ cat, getFgcmReferenceStarsSkyCircle cfg loader selected filterList
        jy ab = Except.ok cat) ∧
    ((findReferenceFilter cfg.refFilterMap loader.loadable
        filterList).isSome = true →
      loader.refDatasetName.isSome = true →
      ¬ (selectMask selected loader.refCat).length = 0 →
      (∃ p ∈ filterList.zip (determineFluxFields cfg.refFilterMap
          loader.schemaFields filterList),
        p.2.isSome = true ∧ lookupAssoc cfg.colorterms p.1 = none) →
      getFgcmReferenceStarsSkyCircle cfg loader selected filterList jy ab
        = Except.error RefError.colortermNotFound) := by
  have hffl : (determineFluxFields cfg.refFilterMap loader.schemaFields
      filterList).length = filterList.length := by
    rw [determineFluxFields, List.length_map]
  have hzlen : (filterList.zip (determineFluxFields cfg.refFilterMap
      loader.schemaFields filterList)).length = filterList.length := by
    rw [List.length_zip, hffl, min_self]
  refine ⟨?_, ?_, ?_⟩
  · intro cat heq i hi hnone row hrow
    cases hrf : findReferenceFilter cfg.refFilterMap loader.loadable
        filterList with
    | none =>
      rw [getFgcmReferenceStarsSkyCircle, hrf] at heq
      exact Except.noConfusion heq
    | some rf =>
      by_cases hz : (selectMask selected loader.refCat).length = 0
      · rw [skyCircle_empty_eq cfg loader selected filterList jy ab rf hrf hz]
          at heq
        injection heq with heq
        rw [← heq] at hrow
        exact absurd hrow (List.not_mem_nil row)
      · cases hdn : loader.refDatasetName with
        | none =>
          rw [getFgcmReferenceStarsSkyCircle, hrf] at heq
          simp only [hct, hdn, if_neg hz, if_true] at heq
          exact Except.noConfusion heq
        | some dn =>
          rw [skyCircle_ct_eq cfg loader selected filterList jy ab rf dn
            hrf hct hdn hz] at heq
          have hcond : ∀ k, k < (filterList.zip (determineFluxFields
              cfg.refFilterMap loader.schemaFields filterList)).length →
              ((filterList.zip (determineFluxFields cfg.refFilterMap
                loader.schemaFields filterList)).getD k ("", none)).2 = none
                ∨ 0 + k ≠ i := by
            intro k hk
            by_cases hki : k = i
            · left
              subst hki
              have hk2 : k < (determineFluxFields cfg.refFilterMap
                  loader.schemaFields filterList).length := by
                rw [hffl]
                exact hi
              rw [List.getD_eq_getElem _ _ hk, List.getElem_zip]
              dsimp only
              rw [← List.getD_eq_getElem _ none hk2]
              exact hnone
            · right
              omega
          have hbaselen : ((selectMask selected loader.refCat).map (fun s =>
              (⟨s.ra, s.dec, List.replicate filterList.length 99,
                List.replicate filterList.length 99⟩ : RefStarRow))).length
              = (selectMask selected loader.refCat).length :=
            List.length_map _ _
          have hcatlen := applyColortermsLoop_length cfg.colorterms selected
            _ 0 _ cat heq
          obtain ⟨r, hrl, hrow'⟩ := List.mem_iff_getElem.mp hrow
          have hrbase : r < ((selectMask selected loader.refCat).map (fun s =>
              (⟨s.ra, s.dec, List.replicate filterList.length 99,
                List.replicate filterList.length 99⟩ : RefStarRow))).length := by
            rw [← hcatlen]
            exact hrl
          have hcol := applyColortermsLoop_preserves_column cfg.colorterms
            selected _ 0 _ cat heq i hcond r hrbase
          have hcatget : cat.getD r dRow = row := by
            rw [List.getD_eq_getElem _ _ hrl, hrow']
          have hbase99 : ∀ c : List ℚ, c = List.replicate filterList.length 99 →
              c.getD i 0 = 99 := by
            intro c hc
            rw [hc, List.getD_eq_getElem _ _
              (by rw [List.length_replicate]; exact hi)]
            exact List.getElem_replicate ..
          have hbaseget : (((selectMask selected loader.refCat).map (fun s =>
              (⟨s.ra, s.dec, List.replicate filterList.length 99,
                List.replicate filterList.length 99⟩ : RefStarRow))).getD r
                dRow).refMag.getD i 0 = 99 ∧
              (((selectMask selected loader.refCat).map (fun s =>
              (⟨s.ra, s.dec, List.replicate filterList.length 99,
                List.replicate filterList.length 99⟩ : RefStarRow))).getD r
                dRow).refMagErr.getD i 0 = 99 := by
            rw [List.getD_eq_getElem _ _ hrbase, List.getElem_map]
            exact ⟨hbase99 _ rfl, hbase99 _ rfl⟩
          rw [hcatget] at hcol
          exact ⟨hcol.1.trans hbaseget.1, hcol.2.trans hbaseget.2⟩
  · intro h1 h2 hall
    obtain ⟨rf, hrf⟩ := Option.isSome_iff_exists.mp h1
    by_cases hz : (selectMask selected loader.refCat).length = 0
    · exact ⟨[], skyCircle_empty_eq cfg loader selected filterList jy ab
        rf hrf hz⟩
    · obtain ⟨dn, hdn⟩ := Option.isSome_iff_exists.mp h2
      rw [skyCircle_ct_eq cfg loader selected filterList jy ab rf dn
        hrf hct hdn hz]
      exact applyColortermsLoop_ok_of_found cfg.colorterms selected _ 0 _ hall
  · intro h1 h2 hz hmiss
    obtain ⟨rf, hrf⟩ := Option.isSome_iff_exists.mp h1
    obtain ⟨dn, hdn⟩ := Option.isSome_iff_exists.mp h2
    rw [skyCircle_ct_eq cfg loader selected filterList jy ab rf dn
      hrf hct hdn hz]
    exact applyColortermsLoop_error_of_missing cfg.colorterms selected
      _ 0 _ hmiss

/-- Witness for the amended C7: bands `g`, `r` with only `g` in
`refFilterMap`; the run completes, `g`'s column is filled and `r`'s column of
every returned row keeps the sentinel 99. -/
theorem claim_C7_sentinel_skip_witness :
    getFgcmReferenceStarsSkyCircle
      ⟨[("g", "g")], true, [("g", ⟨[15], [1]⟩)]⟩
      ⟨["g"], ["g"], some "ps1", [⟨1, 2⟩], []⟩
      [true] ["g", "r"] (fun x => x) (fun e _ => e)
      = Except.ok [⟨1, 2, [15, 99], [1, 99]⟩] ∧
    (determineFluxFields [("g", "g")] ["g"] ["g", "r"]).getD 1 none = none ∧
    (∀ row ∈ [(⟨1, 2, [15, 99], [1, 99]⟩ : RefStarRow)],
      row.refMag.getD 1 0 = 99 ∧ row.refMagErr.getD 1 0 = 99) := by
  have heval : getFgcmReferenceStarsSkyCircle
      ⟨[("g", "g")], true, [("g", ⟨[15], [1]⟩)]⟩
      ⟨["g"], ["g"], some "ps1", [⟨1, 2⟩], []⟩
      [true] ["g", "r"] (fun x => x) (fun e _ => e)
      = Except.ok [⟨1, 2, [15, 99], [1, 99]⟩] := rfl
  refine ⟨heval, rfl, ?_⟩
  exact (claim_C7_sentinel_skip_and_colorterm_abort
    ⟨[("g", "g")], true, [("g", ⟨[15], [1]⟩)]⟩
    ⟨["g"], ["g"], some "ps1", [⟨1, 2⟩], []⟩
    [true] ["g", "r"] (fun x => x) (fun e _ => e) rfl).1
    _ heval 1 (by decide) rfl

end Fgcmcal
